import Mathlib

/-!
Verification of the rust-sc2 bot core (`bot.rs`, `ramp.rs`, `client.rs`)
against its natural-language specification.

Machine floats (`f32`) are embedded as exact rationals `ℚ`; machine
integers (`u32`, `usize`, `u8`) as `ℕ` (with `Fin 256` where the `u8`
range matters), with Rust's `saturating_sub` embedded as truncated `ℕ`
subtraction, which agrees with it on all in-range values.
-/

namespace Sc2

/-- 2-D point with rational coordinates, embedding `geometry::Point2`
(whose coordinates are `f32`). -/
structure Point2 where
  x : ℚ
  y : ℚ
deriving DecidableEq, Repr

/-- `Point2::offset`: translate a point by `(dx, dy)`. -/
def Point2.offset (p : Point2) (dx dy : ℚ) : Point2 :=
  ⟨p.x + dx, p.y + dy⟩

/-- Squared euclidean distance between two points
(`Point2::distance_squared`, a geometry primitive). -/
def Point2.distance_squared (p q : Point2) : ℚ :=
  (p.x - q.x) * (p.x - q.x) + (p.y - q.y) * (p.y - q.y)

/-- Modelled from the spec: the unit-distance helpers `is_further` /
`is_closer` live in the unit module, which is not part of the analysed
sources; the spec describes them as testing whether a unit lies
"within a 15-unit radius" of a location.  They compare squared distance
against the squared radius, strictly, matching their names. -/
def is_further (d : ℚ) (t loc : Point2) : Bool :=
  decide (d * d < t.distance_squared loc)

/-- Modelled from the spec: see `is_further`. -/
def is_closer (d : ℚ) (t loc : Point2) : Bool :=
  decide (t.distance_squared loc < d * d)

/-- An expansion entry as stored in `Bot::expansions`:
(townhall placement location, resource centroid). -/
abbrev Expansion := Point2 × Point2

/-- `Bot::owned_expansions` (bot.rs): expansions with some own townhall
closer than 15 units. -/
def owned_expansions (expansions : List Expansion) (my_townhalls : List Point2) :
    List Expansion :=
  expansions.filter (fun e => my_townhalls.any (fun t => is_closer 15 t e.1))

/-- `Bot::enemy_expansions` (bot.rs): expansions with some enemy townhall
closer than 15 units. -/
def enemy_expansions (expansions : List Expansion) (enemy_townhalls : List Point2) :
    List Expansion :=
  expansions.filter (fun e => enemy_townhalls.any (fun t => is_closer 15 t e.1))

/-- `Bot::free_expansions` (bot.rs): expansions with every own townhall and
every enemy townhall further than 15 units. -/
def free_expansions (expansions : List Expansion)
    (my_townhalls enemy_townhalls : List Point2) : List Expansion :=
  expansions.filter (fun e =>
    my_townhalls.all (fun t => is_further 15 t e.1) &&
    enemy_townhalls.all (fun t => is_further 15 t e.1))

/-- The unit-type identifiers named in the analysed sources (`ids::UnitTypeId`
has many more variants; all others are represented by `other`). -/
inductive UnitTypeId where
  | XelNagaTower
  | RichMineralField
  | RichMineralField750
  | MineralField
  | MineralField450
  | MineralField750
  | LabMineralField
  | LabMineralField750
  | PurifierRichMineralField
  | PurifierRichMineralField750
  | PurifierMineralField
  | PurifierMineralField750
  | BattleStationMineralField
  | BattleStationMineralField750
  | MineralFieldOpaque
  | MineralFieldOpaque900
  | VespeneGeyser
  | SpacePlatformGeyser
  | RichVespeneGeyser
  | ProtossVespeneGeyser
  | PurifierVespeneGeyser
  | ShakurasVespeneGeyser
  | CommandCenter
  | OrbitalCommand
  | PlanetaryFortress
  | CommandCenterFlying
  | OrbitalCommandFlying
  | Hatchery
  | Lair
  | Hive
  | Nexus
  | Refinery
  | RefineryRich
  | Assimilator
  | AssimilatorRich
  | Extractor
  | ExtractorRich
  | TechLab
  | BarracksTechLab
  | FactoryTechLab
  | StarportTechLab
  | Reactor
  | BarracksReactor
  | FactoryReactor
  | StarportReactor
  | SCV
  | Probe
  | Drone
  | Larva
  | Zergling
  | other (n : ℕ)
deriving Repr

/-- An injective numeric code for `UnitTypeId`, used to decide equality
(the derived decision procedure is replaced by this lighter one; the
instance is propositionally the same). -/
def UnitTypeId.code : UnitTypeId → ℕ
  | .XelNagaTower => 0
  | .RichMineralField => 1
  | .RichMineralField750 => 2
  | .MineralField => 3
  | .MineralField450 => 4
  | .MineralField750 => 5
  | .LabMineralField => 6
  | .LabMineralField750 => 7
  | .PurifierRichMineralField => 8
  | .PurifierRichMineralField750 => 9
  | .PurifierMineralField => 10
  | .PurifierMineralField750 => 11
  | .BattleStationMineralField => 12
  | .BattleStationMineralField750 => 13
  | .MineralFieldOpaque => 14
  | .MineralFieldOpaque900 => 15
  | .VespeneGeyser => 16
  | .SpacePlatformGeyser => 17
  | .RichVespeneGeyser => 18
  | .ProtossVespeneGeyser => 19
  | .PurifierVespeneGeyser => 20
  | .ShakurasVespeneGeyser => 21
  | .CommandCenter => 22
  | .OrbitalCommand => 23
  | .PlanetaryFortress => 24
  | .CommandCenterFlying => 25
  | .OrbitalCommandFlying => 26
  | .Hatchery => 27
  | .Lair => 28
  | .Hive => 29
  | .Nexus => 30
  | .Refinery => 31
  | .RefineryRich => 32
  | .Assimilator => 33
  | .AssimilatorRich => 34
  | .Extractor => 35
  | .ExtractorRich => 36
  | .TechLab => 37
  | .BarracksTechLab => 38
  | .FactoryTechLab => 39
  | .StarportTechLab => 40
  | .Reactor => 41
  | .BarracksReactor => 42
  | .FactoryReactor => 43
  | .StarportReactor => 44
  | .SCV => 45
  | .Probe => 46
  | .Drone => 47
  | .Larva => 48
  | .Zergling => 49
  | .other n => n + 50

/-- The left inverse of `UnitTypeId.code`. -/
def UnitTypeId.decode : ℕ → UnitTypeId
  | 0 => .XelNagaTower
  | 1 => .RichMineralField
  | 2 => .RichMineralField750
  | 3 => .MineralField
  | 4 => .MineralField450
  | 5 => .MineralField750
  | 6 => .LabMineralField
  | 7 => .LabMineralField750
  | 8 => .PurifierRichMineralField
  | 9 => .PurifierRichMineralField750
  | 10 => .PurifierMineralField
  | 11 => .PurifierMineralField750
  | 12 => .BattleStationMineralField
  | 13 => .BattleStationMineralField750
  | 14 => .MineralFieldOpaque
  | 15 => .MineralFieldOpaque900
  | 16 => .VespeneGeyser
  | 17 => .SpacePlatformGeyser
  | 18 => .RichVespeneGeyser
  | 19 => .ProtossVespeneGeyser
  | 20 => .PurifierVespeneGeyser
  | 21 => .ShakurasVespeneGeyser
  | 22 => .CommandCenter
  | 23 => .OrbitalCommand
  | 24 => .PlanetaryFortress
  | 25 => .CommandCenterFlying
  | 26 => .OrbitalCommandFlying
  | 27 => .Hatchery
  | 28 => .Lair
  | 29 => .Hive
  | 30 => .Nexus
  | 31 => .Refinery
  | 32 => .RefineryRich
  | 33 => .Assimilator
  | 34 => .AssimilatorRich
  | 35 => .Extractor
  | 36 => .ExtractorRich
  | 37 => .TechLab
  | 38 => .BarracksTechLab
  | 39 => .FactoryTechLab
  | 40 => .StarportTechLab
  | 41 => .Reactor
  | 42 => .BarracksReactor
  | 43 => .FactoryReactor
  | 44 => .StarportReactor
  | 45 => .SCV
  | 46 => .Probe
  | 47 => .Drone
  | 48 => .Larva
  | 49 => .Zergling
  | n + 50 => .other n

theorem UnitTypeId.decode_code (t : UnitTypeId) : UnitTypeId.decode t.code = t := by
  cases t <;> rfl

instance : DecidableEq UnitTypeId := fun a b =>
  if h : a.code = b.code then
    isTrue (by
      have hd := congrArg UnitTypeId.decode h
      rwa [UnitTypeId.decode_code, UnitTypeId.decode_code] at hd)
  else
    isFalse (fun hc => h (congrArg UnitTypeId.code hc))

/-- `game_data::Cost`: minerals and vespene are `u32` (embedded as `ℕ`),
supply is `f32` (embedded as `ℚ`). -/
structure Cost where
  minerals : ℕ
  vespene : ℕ
  supply : ℚ
deriving DecidableEq, Repr

/-- The per-type entry of `game_data.units`: the associated production
ability (if any) and the cost returned by `UnitTypeData::cost()`. -/
structure UnitTypeData where
  ability : Option ℕ
  cost : Cost
deriving DecidableEq, Repr

/-- The game data needed by `Bot`: `units` and `upgrades` lookup maps
(`HashMap::get` embedded as an `Option`-valued function). -/
structure GameData where
  units : UnitTypeId → Option UnitTypeData
  upgrades : ℕ → Option Cost

/-- `Bot::get_unit_cost` (bot.rs): the raw data cost with the special-case
overrides for OrbitalCommand, Reactor, TechLab and Zergling; defaults to a
zero cost when the type is unknown. -/
def get_unit_cost (gd : GameData) (unit : UnitTypeId) : Cost :=
  match gd.units unit with
  | none => ⟨0, 0, 0⟩
  | some data =>
    let cost := data.cost
    match unit with
    | .OrbitalCommand => { cost with minerals := 150 }
    | .Reactor => { cost with minerals := 50, vespene := 50 }
    | .TechLab => { cost with minerals := 50, vespene := 25 }
    | .Zergling => { cost with minerals := cost.minerals * 2 }
    | _ => cost

/-- `Bot::get_upgrade_cost` (bot.rs): cost of an upgrade, zero when
unknown. -/
def get_upgrade_cost (gd : GameData) (upgrade : ℕ) : Cost :=
  match gd.upgrades upgrade with
  | none => ⟨0, 0, 0⟩
  | some cost => cost

/-- The resource fields of `Bot` touched by the subtraction helpers
(all `u32`, embedded as `ℕ`). -/
structure BotResources where
  minerals : ℕ
  vespene : ℕ
  supply_used : ℕ
  supply_left : ℕ
deriving DecidableEq, Repr

/-- Rust's `f32 as u32` cast: truncation toward zero, negatives clamp
to zero. -/
def ratToU32 (q : ℚ) : ℕ := ⌊q⌋.toNat

/-- `Bot::substract_resources` (bot.rs): subtract a unit's cost with
`saturating_sub` on minerals, vespene and remaining supply (`ℕ`
subtraction truncates at zero exactly as `u32::saturating_sub` does),
and add the supply cost to the used supply. -/
def substract_resources (gd : GameData) (b : BotResources) (unit : UnitTypeId) :
    BotResources :=
  let cost := get_unit_cost gd unit
  let supply_cost := ratToU32 cost.supply
  { minerals := b.minerals - cost.minerals
    vespene := b.vespene - cost.vespene
    supply_used := b.supply_used + supply_cost
    supply_left := b.supply_left - supply_cost }

/-- `Bot::substract_upgrade_cost` (bot.rs): subtract an upgrade's cost
with `saturating_sub` on minerals and vespene. -/
def substract_upgrade_cost (gd : GameData) (b : BotResources) (upgrade : ℕ) :
    BotResources :=
  let cost := get_upgrade_cost gd upgrade
  { b with
    minerals := b.minerals - cost.minerals
    vespene := b.vespene - cost.vespene }

/-- C9: `substract_resources` and `substract_upgrade_cost` never underflow:
whenever the cost exceeds the current minerals, vespene or remaining supply,
the corresponding field becomes exactly 0 (and in general never grows),
while `supply_used` is always increased by the unit's supply cost. -/
theorem substract_resources_saturate (gd : GameData) (b : BotResources)
    (unit : UnitTypeId) (upgrade : ℕ) :
    ((get_unit_cost gd unit).minerals > b.minerals →
        (substract_resources gd b unit).minerals = 0) ∧
      (substract_resources gd b unit).minerals ≤ b.minerals ∧
      ((get_unit_cost gd unit).vespene > b.vespene →
        (substract_resources gd b unit).vespene = 0) ∧
      (substract_resources gd b unit).vespene ≤ b.vespene ∧
      (ratToU32 (get_unit_cost gd unit).supply > b.supply_left →
        (substract_resources gd b unit).supply_left = 0) ∧
      (substract_resources gd b unit).supply_left ≤ b.supply_left ∧
      (substract_resources gd b unit).supply_used =
        b.supply_used + ratToU32 (get_unit_cost gd unit).supply ∧
      ((get_upgrade_cost gd upgrade).minerals > b.minerals →
        (substract_upgrade_cost gd b upgrade).minerals = 0) ∧
      (substract_upgrade_cost gd b upgrade).minerals ≤ b.minerals ∧
      ((get_upgrade_cost gd upgrade).vespene > b.vespene →
        (substract_upgrade_cost gd b upgrade).vespene = 0) ∧
      (substract_upgrade_cost gd b upgrade).vespene ≤ b.vespene := by
  dsimp only [substract_resources, substract_upgrade_cost]
  refine ⟨?_, ?_, ?_, ?_, ?_, ?_, ?_, ?_, ?_, ?_, ?_⟩ <;> omega

/-- Witness for C9 at a concrete input: a 50/25/2-cost unit and a 100/75
upgrade against a bot holding 10 minerals, 10 vespene and 1 supply. -/
theorem substract_resources_saturate_witness :
    (substract_resources
        ⟨fun _ => some ⟨some 1, ⟨50, 25, 2⟩⟩, fun _ => some ⟨100, 75, 0⟩⟩
        ⟨10, 10, 3, 1⟩ .SCV).minerals = 0 ∧
      (substract_resources
        ⟨fun _ => some ⟨some 1, ⟨50, 25, 2⟩⟩, fun _ => some ⟨100, 75, 0⟩⟩
        ⟨10, 10, 3, 1⟩ .SCV).supply_used = 3 + 2 := by
  have h := substract_resources_saturate
    ⟨fun _ => some ⟨some 1, ⟨50, 25, 2⟩⟩, fun _ => some ⟨100, 75, 0⟩⟩
    ⟨10, 10, 3, 1⟩ .SCV 0
  refine ⟨h.1 (by norm_num [get_unit_cost]), ?_⟩
  have h2 := h.2.2.2.2.2.2.1
  rw [h2]
  norm_num [get_unit_cost, ratToU32]
  rfl

/-- `action::Target`: the target of a unit command. -/
inductive Target where
  | none
  | pos (p : Point2)
  | tag (t : ℕ)
deriving DecidableEq, Repr

/-- `action::Action`: either a (possibly multi-unit) unit command or a
non-order action such as a chat message. -/
inductive Action where
  | UnitCommand (ability : ℕ) (target : Target) (tags : List ℕ) (queue : Bool)
  | Chat (message : String) (team : Bool)
deriving DecidableEq, Repr

/-- The key of the `Commander::commands` map: (ability, target, queue). -/
abbrev CommandKey := ℕ × Target × Bool

/-- The batched action built from one `commands` entry in
`Bot::get_actions`. -/
def mkUnitCommand (kv : CommandKey × List ℕ) : Action :=
  .UnitCommand kv.1.1 kv.1.2.1 kv.2 kv.1.2.2

/-- `Bot::get_actions` (bot.rs): the pending plain actions followed by one
batched `UnitCommand` per entry of the commander's `commands` map (the map
is embedded as its entry list; key uniqueness is a map invariant taken as a
hypothesis where needed). -/
def get_actions (actions : List Action) (commands : List (CommandKey × List ℕ)) :
    List Action :=
  if commands.isEmpty then actions
  else actions ++ commands.map mkUnitCommand

/-- `Bot::chat` (bot.rs): push an individual chat action, bypassing the
aggregation. -/
def chat (actions : List Action) (message : String) : List Action :=
  actions ++ [.Chat message false]

/-- Does this action carry a unit command with exactly this
(ability, target, queue) key? -/
def hasCommandKey (k : CommandKey) (a : Action) : Bool :=
  match a with
  | .UnitCommand ability target _ queue => decide ((ability, target, queue) = k)
  | .Chat _ _ => false

/-- In a duplicate-free list, exactly one element equals a given member. -/
theorem countP_eq_one_of_nodup {α : Type} [DecidableEq α] (l : List α) (a : α)
    (h : l.Nodup) (ha : a ∈ l) : l.countP (fun x => decide (x = a)) = 1 := by
  induction l with
  | nil => cases ha
  | cons b t ih =>
    rw [List.countP_cons]
    rcases List.mem_cons.mp ha with rfl | hat
    · have hnot : a ∉ t := (List.nodup_cons.mp h).1
      have : t.countP (fun x => decide (x = a)) = 0 := by
        rw [List.countP_eq_zero]
        intro x hx
        simp only [decide_eq_true_eq]
        intro hxa
        exact hnot (hxa ▸ hx)
      simp [this]
    · have : t.countP (fun x => decide (x = a)) = 1 :=
        ih (List.nodup_cons.mp h).2 hat
      have hba : ¬(b = a) := by
        intro hba
        exact (List.nodup_cons.mp h).1 (hba ▸ hat)
      simp [this, hba]

/-- C3: flushing produces exactly one batched `UnitCommand` per distinct
(ability, target, queue) key, carrying all tags accumulated under that key;
orders with different keys become different actions, and non-order actions
(e.g. chat) are kept as individual entries before the batch. -/
theorem get_actions_batches (acts : List Action)
    (cmds : List (CommandKey × List ℕ))
    (h : (cmds.map Prod.fst).Nodup) :
    get_actions acts cmds = acts ++ cmds.map mkUnitCommand ∧
      (∀ kv ∈ cmds,
        (cmds.map mkUnitCommand).countP (hasCommandKey kv.1) = 1 ∧
          Action.UnitCommand kv.1.1 kv.1.2.1 kv.2 kv.1.2.2 ∈ get_actions acts cmds) ∧
      (∀ a ∈ acts, a ∈ get_actions acts cmds) ∧
      chat acts "x" = acts ++ [Action.Chat "x" false] := by
  have heq : get_actions acts cmds = acts ++ cmds.map mkUnitCommand := by
    rw [get_actions]
    split
    · next hempty =>
      rw [List.isEmpty_iff.mp hempty]
      simp
    · rfl
  refine ⟨heq, ?_, ?_, rfl⟩
  · intro kv hkv
    constructor
    · have hkey : ∀ kv' : CommandKey × List ℕ,
          hasCommandKey kv.1 (mkUnitCommand kv') = decide (kv'.1 = kv.1) := by
        intro kv'
        simp only [mkUnitCommand, hasCommandKey]
      rw [List.countP_map]
      have : (hasCommandKey kv.1 ∘ mkUnitCommand) = fun kv' => decide (kv'.1 = kv.1) := by
        funext kv'
        exact hkey kv'
      rw [this]
      have hc : cmds.countP (fun kv' => decide (kv'.1 = kv.1)) =
          (cmds.map Prod.fst).countP (fun k => decide (k = kv.1)) := by
        rw [List.countP_map]
        rfl
      rw [hc]
      have hmemk : kv.1 ∈ cmds.map Prod.fst := List.mem_map_of_mem Prod.fst hkv
      exact countP_eq_one_of_nodup _ _ h hmemk
    · rw [heq]
      refine List.mem_append_right _ ?_
      exact List.mem_map_of_mem mkUnitCommand hkv
  · intro a ha
    rw [heq]
    exact List.mem_append_left _ ha

/-- Witness for C3 at a concrete input: one chat entry plus two distinct
command keys, one accumulating two unit tags. -/
theorem get_actions_batches_witness :
    get_actions [Action.Chat "gl hf" false]
        [((1, Target.none, false), [10, 11]), ((2, Target.none, false), [12])] =
      [Action.Chat "gl hf" false,
        Action.UnitCommand 1 Target.none [10, 11] false,
        Action.UnitCommand 2 Target.none [12] false] ∧
      ([((1, Target.none, false), [10, 11]),
          ((2, Target.none, false), [12])].map mkUnitCommand).countP
        (hasCommandKey (1, Target.none, false)) = 1 := by
  have h := get_actions_batches [Action.Chat "gl hf" false]
    [((1, Target.none, false), [10, 11]), ((2, Target.none, false), [12])]
    (by simp)
  refine ⟨?_, (h.2.1 ((1, Target.none, false), [10, 11]) (by simp)).1⟩
  rw [h.1]
  rfl

/-- `game_state::Alliance`. -/
inductive Alliance where
  | Own
  | Ally
  | Neutral
  | Enemy
deriving DecidableEq, Repr

/-- An active order of a unit (only the ability matters here). -/
structure UnitOrder where
  ability : ℕ
deriving DecidableEq, Repr

/-- The raw per-unit snapshot data consumed by `Bot::update_units` and
`Bot::prepare_step`.  `is_structure`, `is_placeholder` and `is_ready` are
the unit-module predicates (derived from game data / build progress),
embedded as snapshot fields. -/
structure RawUnit where
  tag : ℕ
  type_id : UnitTypeId
  alliance : Alliance
  is_structure : Bool
  is_placeholder : Bool
  is_ready : Bool
  weapon_cooldown : Option ℚ
  orders : List UnitOrder
deriving DecidableEq, Repr

/-- `Unit::is_mine`: the unit belongs to the own alliance. -/
def RawUnit.is_mine (u : RawUnit) : Bool :=
  decide (u.alliance = Alliance.Own)

/-- One side's categorized unit collections (the `my` / `enemy` halves of
`units::AllUnits`). -/
structure PlayerUnits where
  all : List RawUnit
  units : List RawUnit
  structures : List RawUnit
  townhalls : List RawUnit
  gas_buildings : List RawUnit
  placeholders : List RawUnit
  workers : List RawUnit
  larvas : List RawUnit
deriving DecidableEq, Repr

/-- A fresh empty side. -/
def PlayerUnits.empty : PlayerUnits := ⟨[], [], [], [], [], [], [], []⟩

/-- `units::AllUnits`: all categorized unit collections. -/
structure AllUnits where
  my : PlayerUnits
  enemy : PlayerUnits
  watchtowers : List RawUnit
  resources : List RawUnit
  mineral_fields : List RawUnit
  vespene_geysers : List RawUnit
  inhibitor_zones : List RawUnit
  destructables : List RawUnit
deriving DecidableEq, Repr

/-- The cleared collections (`AllUnits::clear`). -/
def AllUnits.empty : AllUnits := ⟨.empty, .empty, [], [], [], [], [], []⟩

/-- The mineral-field subtypes of the neutral classification arm. -/
def isMineralFieldType (t : UnitTypeId) : Bool :=
  match t with
  | .RichMineralField | .RichMineralField750 | .MineralField | .MineralField450
  | .MineralField750 | .LabMineralField | .LabMineralField750
  | .PurifierRichMineralField | .PurifierRichMineralField750
  | .PurifierMineralField | .PurifierMineralField750
  | .BattleStationMineralField | .BattleStationMineralField750
  | .MineralFieldOpaque | .MineralFieldOpaque900 => true
  | _ => false

/-- The vespene-geyser subtypes of the neutral classification arm. -/
def isGeyserType (t : UnitTypeId) : Bool :=
  match t with
  | .VespeneGeyser | .SpacePlatformGeyser | .RichVespeneGeyser
  | .ProtossVespeneGeyser | .PurifierVespeneGeyser | .ShakurasVespeneGeyser => true
  | _ => false

/-- The townhall structure types of the structure classification arm. -/
def isTownhallType (t : UnitTypeId) : Bool :=
  match t with
  | .CommandCenter | .OrbitalCommand | .PlanetaryFortress | .CommandCenterFlying
  | .OrbitalCommandFlying | .Hatchery | .Lair | .Hive | .Nexus => true
  | _ => false

/-- The gas-building structure types of the structure classification arm. -/
def isGasBuildingType (t : UnitTypeId) : Bool :=
  match t with
  | .Refinery | .RefineryRich | .Assimilator | .AssimilatorRich
  | .Extractor | .ExtractorRich => true
  | _ => false

/-- The tech-lab structure types of the addon-tag arm. -/
def isTechlabType (t : UnitTypeId) : Bool :=
  match t with
  | .TechLab | .BarracksTechLab | .FactoryTechLab | .StarportTechLab => true
  | _ => false

/-- The reactor structure types of the addon-tag arm. -/
def isReactorType (t : UnitTypeId) : Bool :=
  match t with
  | .Reactor | .BarracksReactor | .FactoryReactor | .StarportReactor => true
  | _ => false

/-- The worker unit types of the non-structure arm. -/
def isWorkerType (t : UnitTypeId) : Bool :=
  match t with
  | .SCV | .Probe | .Drone => true
  | _ => false

/-- The per-pass mutable output of the classification: collections plus the
own-addon tag lists (cleared and rebuilt each run). -/
structure Classified where
  units : AllUnits
  techlab_tags : List ℕ
  reactor_tags : List ℕ
deriving DecidableEq, Repr

/-- The own/enemy half of the classification arm of `Bot::update_units`:
push into `all`, then split structures into placeholders / structures with
townhall, gas-building and (own only) addon-tag subcases, and non-structures
into `units` with worker / larva subcases.  Returns the updated side and the
updated addon tag lists. -/
def classify_player_unit (mine : Bool) (p : PlayerUnits) (tech react : List ℕ)
    (u : RawUnit) : PlayerUnits × List ℕ × List ℕ :=
  let p := { p with all := p.all ++ [u] }
  if u.is_structure then
    if u.is_placeholder then
      ({ p with placeholders := p.placeholders ++ [u] }, tech, react)
    else
      let p := { p with structures := p.structures ++ [u] }
      if isTownhallType u.type_id then
        ({ p with townhalls := p.townhalls ++ [u] }, tech, react)
      else if isGasBuildingType u.type_id then
        ({ p with gas_buildings := p.gas_buildings ++ [u] }, tech, react)
      else if isTechlabType u.type_id && mine then
        (p, tech ++ [u.tag], react)
      else if isReactorType u.type_id && mine then
        (p, tech, react ++ [u.tag])
      else
        (p, tech, react)
  else
    let p := { p with units := p.units ++ [u] }
    if isWorkerType u.type_id then
      ({ p with workers := p.workers ++ [u] }, tech, react)
    else if u.type_id = .Larva then
      ({ p with larvas := p.larvas ++ [u] }, tech, react)
    else
      (p, tech, react)

/-- One unit's classification step of `Bot::update_units` (the collection
part; the cooldown update of the same pass is `update_max_cooldown`).
`inhibitor_ids` is the external `INHIBITOR_IDS` constant. -/
def classify_unit (inhibitor_ids : List UnitTypeId) (c : Classified)
    (u : RawUnit) : Classified :=
  match u.alliance with
  | .Neutral =>
    if u.type_id = .XelNagaTower then
      { c with units.watchtowers := c.units.watchtowers ++ [u] }
    else if isMineralFieldType u.type_id then
      { c with
        units.resources := c.units.resources ++ [u]
        units.mineral_fields := c.units.mineral_fields ++ [u] }
    else if isGeyserType u.type_id then
      { c with
        units.resources := c.units.resources ++ [u]
        units.vespene_geysers := c.units.vespene_geysers ++ [u] }
    else if inhibitor_ids.contains u.type_id then
      { c with units.inhibitor_zones := c.units.inhibitor_zones ++ [u] }
    else
      { c with units.destructables := c.units.destructables ++ [u] }
  | .Own | .Enemy =>
    if u.is_mine then
      let r := classify_player_unit true c.units.my c.techlab_tags c.reactor_tags u
      { units := { c.units with my := r.1 }
        techlab_tags := r.2.1
        reactor_tags := r.2.2 }
    else
      let r := classify_player_unit false c.units.enemy c.techlab_tags c.reactor_tags u
      { units := { c.units with enemy := r.1 }
        techlab_tags := r.2.1
        reactor_tags := r.2.2 }
  | .Ally => c

/-- The per-type maximum weapon-cooldown update of `Bot::update_units`:
for an own unit with a reported cooldown, insert it or raise the stored
maximum; everything else leaves the map unchanged.  (In the source this
sits under the own/enemy arm guarded by `is_mine`, which is equivalent to
the alliance being `Own`.) -/
def update_max_cooldown (m : UnitTypeId → Option ℚ) (u : RawUnit) :
    UnitTypeId → Option ℚ :=
  match u.alliance with
  | .Own | .Enemy =>
    if u.is_mine then
      match u.weapon_cooldown with
      | some c =>
        fun t =>
          if t = u.type_id then
            match m u.type_id with
            | some mx => some (if mx < c then c else mx)
            | none => some c
          else m t
      | none => m
    else m
  | _ => m

/-- The synchronizer state surviving across ticks: the categorized
collections and addon tags (cleared each run) plus the per-type maximum
cooldown map (kept across runs). -/
structure SyncState where
  classified : Classified
  max_cooldowns : UnitTypeId → Option ℚ

/-- One unit of the single classification pass over the raw snapshot. -/
def sync_step (inhibitor_ids : List UnitTypeId) (st : SyncState) (u : RawUnit) :
    SyncState :=
  { classified := classify_unit inhibitor_ids st.classified u
    max_cooldowns := update_max_cooldown st.max_cooldowns u }

/-- `Bot::update_units` (bot.rs): clear all collections and addon tag lists,
keep the cooldown map, then classify every raw unit in one pass. -/
def update_units (inhibitor_ids : List UnitTypeId) (st : SyncState)
    (raw : List RawUnit) : SyncState :=
  raw.foldl (sync_step inhibitor_ids)
    { classified := ⟨AllUnits.empty, [], []⟩, max_cooldowns := st.max_cooldowns }

/-- The classified component of the pass is a pure function of the raw
snapshot: the fold's cooldown component never feeds back into it. -/
theorem foldl_sync_classified (inh : List UnitTypeId) (raw : List RawUnit) :
    ∀ (c : Classified) (m : UnitTypeId → Option ℚ),
      (raw.foldl (sync_step inh) ⟨c, m⟩).classified =
        raw.foldl (classify_unit inh) c := by
  induction raw with
  | nil => intro c m; rfl
  | cons u t ih => intro c m; exact ih (classify_unit inh c u) (update_max_cooldown m u)

/-- The cooldown component of the pass is the fold of the cooldown update
over the raw snapshot. -/
theorem foldl_sync_cooldowns (inh : List UnitTypeId) (raw : List RawUnit) :
    ∀ (c : Classified) (m : UnitTypeId → Option ℚ),
      (raw.foldl (sync_step inh) ⟨c, m⟩).max_cooldowns =
        raw.foldl update_max_cooldown m := by
  induction raw with
  | nil => intro c m; rfl
  | cons u t ih => intro c m; exact ih (classify_unit inh c u) (update_max_cooldown m u)

/-- C4: running the classification pass twice over the same unchanged raw
unit list yields exactly the same categorized collections and addon tag
lists as running it once: they are cleared and rebuilt from scratch each
run, so reclassification is idempotent. -/
theorem update_units_idempotent (inh : List UnitTypeId) (st : SyncState)
    (raw : List RawUnit) :
    (update_units inh (update_units inh st raw) raw).classified =
      (update_units inh st raw).classified := by
  unfold update_units
  rw [foldl_sync_classified, foldl_sync_classified]

/-- A single cooldown update never removes or decreases an entry. -/
theorem update_max_cooldown_mono (u : RawUnit) (m : UnitTypeId → Option ℚ)
    (t : UnitTypeId) (v : ℚ) (h : m t = some v) :
    ∃ v', update_max_cooldown m u t = some v' ∧ v ≤ v' := by
  unfold update_max_cooldown
  match halliance : u.alliance with
  | .Ally | .Neutral => exact ⟨v, h, le_refl v⟩
  | .Own | .Enemy =>
    by_cases hmine : u.is_mine
    · rw [if_pos hmine]
      match hcd : u.weapon_cooldown with
      | none => exact ⟨v, h, le_refl v⟩
      | some c =>
        dsimp only
        by_cases ht : t = u.type_id
        · subst ht
          rw [if_pos rfl, h]
          dsimp only
          by_cases hlt : v < c
          · exact ⟨c, by rw [if_pos hlt], le_of_lt hlt⟩
          · exact ⟨v, by rw [if_neg hlt], le_refl v⟩
        · exact ⟨v, by rw [if_neg ht]; exact h, le_refl v⟩
    · rw [if_neg hmine]
      exact ⟨v, h, le_refl v⟩

/-- Folding cooldown updates never removes or decreases an entry. -/
theorem foldl_max_cooldown_mono (raw : List RawUnit) :
    ∀ (m : UnitTypeId → Option ℚ) (t : UnitTypeId) (v : ℚ), m t = some v →
      ∃ v', (raw.foldl update_max_cooldown m) t = some v' ∧ v ≤ v' := by
  induction raw with
  | nil => intro m t v h; exact ⟨v, h, le_refl v⟩
  | cons u rest ih =>
    intro m t v h
    obtain ⟨v1, h1, hle1⟩ := update_max_cooldown_mono u m t v h
    obtain ⟨v2, h2, hle2⟩ := ih (update_max_cooldown m u) t v1 h1
    exact ⟨v2, h2, le_trans hle1 hle2⟩

/-- C5: across any call to `update_units`, the per-type maximum
weapon-cooldown map only gains entries or raises them: any value present
before the call is still present afterwards and has not decreased. -/
theorem max_cooldowns_monotone (inh : List UnitTypeId) (st : SyncState)
    (raw : List RawUnit) (t : UnitTypeId) (v : ℚ)
    (h : st.max_cooldowns t = some v) :
    ∃ v', (update_units inh st raw).max_cooldowns t = some v' ∧ v ≤ v' := by
  unfold update_units
  rw [foldl_sync_cooldowns]
  exact foldl_max_cooldown_mono raw st.max_cooldowns t v h

/-- Witness for C5 at a concrete input: a stored maximum of 5 for SCV and a
snapshot containing one own SCV with cooldown 7. -/
theorem max_cooldowns_monotone_witness :
    ∃ v', (update_units []
        ⟨⟨AllUnits.empty, [], []⟩,
          fun t => if t = .SCV then some 5 else none⟩
        [⟨1, .SCV, .Own, false, false, true, some 7, []⟩]).max_cooldowns
        .SCV = some v' ∧ (5 : ℚ) ≤ v' :=
  max_cooldowns_monotone []
    ⟨⟨AllUnits.empty, [], []⟩, fun t => if t = .SCV then some 5 else none⟩
    [⟨1, .SCV, .Own, false, false, true, some 7, []⟩] .SCV 5 (by simp)

/-- `HashMap::entry(k).or_default() += 1` on an ability-keyed counter. -/
def bumpA (f : ℕ → ℕ) (a : ℕ) : ℕ → ℕ :=
  fun x => if x = a then f x + 1 else f x

/-- `HashMap::entry(k).or_default() += 1` on a type-keyed counter. -/
def bumpT (f : UnitTypeId → ℕ) (t : UnitTypeId) : UnitTypeId → ℕ :=
  fun x => if x = t then f x + 1 else f x

theorem bumpA_self (f : ℕ → ℕ) (a : ℕ) : bumpA f a a = f a + 1 := by
  unfold bumpA
  rw [if_pos rfl]

theorem bumpA_ne (f : ℕ → ℕ) (a x : ℕ) (h : ¬(x = a)) : bumpA f a x = f x := by
  unfold bumpA
  rw [if_neg h]

theorem bumpT_self (f : UnitTypeId → ℕ) (t : UnitTypeId) : bumpT f t t = f t + 1 := by
  unfold bumpT
  rw [if_pos rfl]

theorem bumpT_ne (f : UnitTypeId → ℕ) (t x : UnitTypeId) (h : ¬(x = t)) :
    bumpT f t x = f x := by
  unfold bumpT
  rw [if_neg h]

/-- One owned unit of the counting loop of `Bot::prepare_step`: bump
`orders` for every active order whose ability is not constructing
(`is_constructing` is the external `AbilityId::is_constructing`), then
either bump `current_units` (ready and not placeholder) or bump `orders`
at the type's associated production ability. -/
def count_unit_step (is_constructing : ℕ → Bool) (gd : GameData)
    (acc : (ℕ → ℕ) × (UnitTypeId → ℕ)) (u : RawUnit) :
    (ℕ → ℕ) × (UnitTypeId → ℕ) :=
  let orders := u.orders.foldl
    (fun o ord => if is_constructing ord.ability then o else bumpA o ord.ability)
    acc.1
  if u.is_ready && !u.is_placeholder then
    (orders, bumpT acc.2 u.type_id)
  else
    match gd.units u.type_id with
    | some data =>
      match data.ability with
      | some ab => (bumpA orders ab, acc.2)
      | none => (orders, acc.2)
    | none => (orders, acc.2)

/-- The counting part of `Bot::prepare_step` (bot.rs): both maps start from
fresh empty `HashMap`s and are filled in one pass over the owned units. -/
def prepare_step_counts (is_constructing : ℕ → Bool) (gd : GameData)
    (my_units : List RawUnit) : (ℕ → ℕ) × (UnitTypeId → ℕ) :=
  my_units.foldl (count_unit_step is_constructing gd) (fun _ => 0, fun _ => 0)

/-- The counter fields of `Bot` rebuilt by `prepare_step`. -/
structure BotCounters where
  orders : ℕ → ℕ
  current_units : UnitTypeId → ℕ

/-- `Bot::prepare_step` (counting portion): the previous tick's counters
are replaced entirely by the freshly computed maps. -/
def prepare_step (is_constructing : ℕ → Bool) (gd : GameData)
    (_prev : BotCounters) (my_units : List RawUnit) : BotCounters :=
  { orders := (prepare_step_counts is_constructing gd my_units).1
    current_units := (prepare_step_counts is_constructing gd my_units).2 }

/-- The contribution of one owned unit to `orders[a]`: its non-constructing
active orders with ability `a`, plus one if it is not ready or a placeholder
and `a` is its type's associated production ability. -/
def unit_order_contrib (is_constructing : ℕ → Bool) (gd : GameData)
    (a : ℕ) (u : RawUnit) : ℕ :=
  u.orders.countP (fun o => decide (o.ability = a) && !is_constructing o.ability) +
    (if (u.is_ready && !u.is_placeholder) = false ∧
        (gd.units u.type_id).bind UnitTypeData.ability = some a
      then 1 else 0)

/-- The inner order loop adds exactly the non-constructing order count. -/
theorem orders_foldl_count (is_constructing : ℕ → Bool) (a : ℕ)
    (os : List UnitOrder) :
    ∀ f : ℕ → ℕ,
      (os.foldl
        (fun o ord =>
          if is_constructing ord.ability then o else bumpA o ord.ability) f) a =
        f a + os.countP (fun o => decide (o.ability = a) && !is_constructing o.ability) := by
  induction os with
  | nil => intro f; simp
  | cons ord t ih =>
    intro f
    rw [List.foldl_cons, ih, List.countP_cons]
    by_cases hc : is_constructing ord.ability
    · rw [if_pos hc]
      have hpred : (decide (ord.ability = a) && !is_constructing ord.ability) = false := by
        simp [hc]
      rw [hpred]
      simp
    · rw [if_neg hc]
      rw [Bool.not_eq_true] at hc
      by_cases ha : a = ord.ability
      · subst ha
        rw [bumpA_self]
        have hpred : (decide (ord.ability = ord.ability) && !is_constructing ord.ability) = true := by
          simp [hc]
        rw [hpred]
        simp
        omega
      · rw [bumpA_ne _ _ _ ha]
        have hpred : (decide (ord.ability = a) && !is_constructing ord.ability) = false := by
          have hne : ¬(ord.ability = a) := fun hh => ha hh.symm
          simp [hne]
        rw [hpred]
        simp

/-- The outer counting loop accumulates per-unit order contributions. -/
theorem counts_foldl_orders (is_constructing : ℕ → Bool) (gd : GameData)
    (a : ℕ) (us : List RawUnit) :
    ∀ acc : (ℕ → ℕ) × (UnitTypeId → ℕ),
      (us.foldl (count_unit_step is_constructing gd) acc).1 a =
        acc.1 a + (us.map (unit_order_contrib is_constructing gd a)).sum := by
  induction us with
  | nil => intro acc; simp
  | cons u t ih =>
    intro acc
    rw [List.foldl_cons, ih, List.map_cons, List.sum_cons]
    have hstep : (count_unit_step is_constructing gd acc u).1 a =
        acc.1 a + unit_order_contrib is_constructing gd a u := by
      unfold count_unit_step unit_order_contrib
      by_cases hready : (u.is_ready && !u.is_placeholder) = true
      · rw [if_pos hready]
        dsimp only
        rw [orders_foldl_count]
        simp [hready]
      · rw [if_neg hready]
        rw [Bool.not_eq_true] at hready
        rcases hgd : gd.units u.type_id with _ | data
        · dsimp only
          rw [orders_foldl_count]
          simp
        · dsimp only
          rw [Option.some_bind]
          rcases hab : data.ability with _ | ab
          · dsimp only
            rw [orders_foldl_count]
            simp
          · dsimp only
            by_cases ha : a = ab
            · subst ha
              rw [bumpA_self, orders_foldl_count]
              rw [if_pos (⟨hready, rfl⟩ :
                (u.is_ready && !u.is_placeholder) = false ∧
                  (some a : Option ℕ) = some a)]
              omega
            · rw [bumpA_ne _ _ _ ha, orders_foldl_count]
              have hne : ¬((u.is_ready && !u.is_placeholder) = false ∧
                  (some ab : Option ℕ) = some a) := by
                intro hcontra
                exact ha (Option.some.inj hcontra.2).symm
              rw [if_neg hne]
              omega
    rw [hstep]
    omega

/-- The outer counting loop accumulates the ready-unit count per type. -/
theorem counts_foldl_current (is_constructing : ℕ → Bool) (gd : GameData)
    (t : UnitTypeId) (us : List RawUnit) :
    ∀ acc : (ℕ → ℕ) × (UnitTypeId → ℕ),
      (us.foldl (count_unit_step is_constructing gd) acc).2 t =
        acc.2 t + us.countP
          (fun u => u.is_ready && !u.is_placeholder && decide (u.type_id = t)) := by
  induction us with
  | nil => intro acc; simp
  | cons u rest ih =>
    intro acc
    rw [List.foldl_cons, ih, List.countP_cons]
    have hstep2 : (count_unit_step is_constructing gd acc u).2 t =
        acc.2 t +
          (if (u.is_ready && !u.is_placeholder && decide (u.type_id = t)) = true
            then 1 else 0) := by
      unfold count_unit_step
      by_cases hready : (u.is_ready && !u.is_placeholder) = true
      · rw [if_pos hready]
        dsimp only
        by_cases ht : u.type_id = t
        · subst ht
          rw [bumpT_self]
          simp [hready]
        · have hnt : ¬(t = u.type_id) := fun hh => ht hh.symm
          rw [bumpT_ne _ _ _ hnt]
          simp [ht]
      · rw [if_neg hready]
        rw [Bool.not_eq_true] at hready
        have hcond : (u.is_ready && !u.is_placeholder && decide (u.type_id = t)) = false := by
          rw [hready]
          simp
        rcases hgd : gd.units u.type_id with _ | data
        · dsimp only
          simp [hcond]
        · dsimp only
          rcases hab : data.ability with _ | ab
          · dsimp only
            simp [hcond]
          · dsimp only
            simp [hcond]
    rw [hstep2]
    omega

/-- C2: after `prepare_step`, `orders[a]` counts, over the owned units, one
per active order with a non-constructing ability `a` plus one per not-ready
or placeholder unit whose type's production ability is `a`; and
`current_units[ty]` counts exactly the ready non-placeholder owned units of
type `ty`.  Both maps are pure functions of the current snapshot, replacing
the previous counters entirely. -/
theorem prepare_step_counts_spec (is_constructing : ℕ → Bool) (gd : GameData)
    (prev : BotCounters) (us : List RawUnit) (a : ℕ) (ty : UnitTypeId) :
    (prepare_step is_constructing gd prev us).orders a =
        (us.map (unit_order_contrib is_constructing gd a)).sum ∧
      (prepare_step is_constructing gd prev us).current_units ty =
        us.countP
          (fun u => u.is_ready && !u.is_placeholder && decide (u.type_id = ty)) := by
  unfold prepare_step prepare_step_counts
  dsimp only
  constructor
  · rw [counts_foldl_orders]
    simp
  · rw [counts_foldl_current]
    simp

/-- One comparison step of Rust's `Iterator::min_by` on the second
component: keep the current minimum on ties (the first minimal element
wins overall). -/
def keepMin {α : Type} (a b : α × ℚ) : α × ℚ :=
  if b.2 < a.2 then b else a

/-- Rust's `Iterator::min_by` comparing second components (`partial_cmp`
on `f32` embedded as the total order on `ℚ`): `none` on an empty
iterator, otherwise the first element of minimal second component. -/
def min_by_snd {α : Type} : List (α × ℚ) → Option (α × ℚ)
  | [] => none
  | x :: xs => some (xs.foldl keepMin x)

theorem foldl_keepMin_le_init {α : Type} (xs : List (α × ℚ)) :
    ∀ x : α × ℚ, (xs.foldl keepMin x).2 ≤ x.2 := by
  induction xs with
  | nil => intro x; exact le_refl _
  | cons y ys ih =>
    intro x
    rw [List.foldl_cons]
    refine le_trans (ih (keepMin x y)) ?_
    unfold keepMin
    by_cases hlt : y.2 < x.2
    · rw [if_pos hlt]; exact le_of_lt hlt
    · rw [if_neg hlt]

/-- The fold underlying `min_by` returns an element of the list that is
strictly below everything before it and weakly below everything after it
(so it is the first minimal element). -/
theorem foldl_keepMin_spec {α : Type} (xs : List (α × ℚ)) :
    ∀ x : α × ℚ,
      ∃ pre post, x :: xs = pre ++ (xs.foldl keepMin x) :: post ∧
        (∀ y ∈ pre, (xs.foldl keepMin x).2 < y.2) ∧
        (∀ y ∈ post, (xs.foldl keepMin x).2 ≤ y.2) := by
  induction xs with
  | nil =>
    intro x
    exact ⟨[], [], rfl, by simp, by simp⟩
  | cons y ys ih =>
    intro x
    rw [List.foldl_cons]
    obtain ⟨pre, post, hdec, hpre, hpost⟩ := ih (keepMin x y)
    by_cases hlt : y.2 < x.2
    · have hky : keepMin x y = y := by unfold keepMin; rw [if_pos hlt]
      rw [hky] at hdec hpre hpost ⊢
      refine ⟨x :: pre, post, ?_, ?_, hpost⟩
      · rw [List.cons_append, ← hdec]
      · intro z hz
        rcases List.mem_cons.mp hz with rfl | hzpre
        · exact lt_of_le_of_lt (foldl_keepMin_le_init ys y) hlt
        · exact hpre z hzpre
    · have hkx : keepMin x y = x := by unfold keepMin; rw [if_neg hlt]
      rw [hkx] at hdec hpre hpost ⊢
      have hxy : x.2 ≤ y.2 := le_of_not_lt hlt
      cases pre with
      | nil =>
        rw [List.nil_append] at hdec
        obtain ⟨hmx, hpost'⟩ : ys.foldl keepMin x = x ∧ ys = post := by
          have h1 := List.head_eq_of_cons_eq hdec
          have h2 := List.tail_eq_of_cons_eq hdec
          exact ⟨h1.symm, h2⟩
        refine ⟨[], y :: ys, ?_, by simp, ?_⟩
        · rw [List.nil_append, hmx]
        · intro z hz
          rcases List.mem_cons.mp hz with rfl | hzys
          · rw [hmx]; exact hxy
          · rw [hpost'] at hzys
            exact hpost z hzys
      | cons p pre' =>
        rw [List.cons_append] at hdec
        have hp : x = p := List.head_eq_of_cons_eq hdec
        have hys : ys = pre' ++ ys.foldl keepMin x :: post :=
          List.tail_eq_of_cons_eq hdec
        have hmlt : (ys.foldl keepMin x).2 < x.2 := by
          have := hpre p (List.mem_cons_self p pre')
          rw [← hp] at this
          exact this
        refine ⟨x :: y :: pre', post, ?_, ?_, hpost⟩
        · rw [List.cons_append, List.cons_append, ← hys]
        · intro z hz
          rcases List.mem_cons.mp hz with rfl | hz'
          · exact hmlt
          rcases List.mem_cons.mp hz' with rfl | hz''
          · exact lt_of_lt_of_le hmlt hxy
          · exact hpre z (List.mem_cons_of_mem p hz'')

/-- `min_by` on a nonempty list returns its first minimal element. -/
theorem min_by_snd_spec {α : Type} (l : List (α × ℚ)) (m : α × ℚ)
    (h : min_by_snd l = some m) :
    ∃ pre post, l = pre ++ m :: post ∧ (∀ y ∈ pre, m.2 < y.2) ∧
      (∀ y ∈ post, m.2 ≤ y.2) := by
  match l with
  | [] => cases h
  | x :: xs =>
    have hm : xs.foldl keepMin x = m := Option.some.inj h
    rw [← hm]
    exact foldl_keepMin_spec xs x

/-- `min_by` is `none` exactly on the empty list. -/
theorem min_by_snd_none {α : Type} (l : List (α × ℚ)) :
    min_by_snd l = none ↔ l = [] := by
  match l with
  | [] => simp [min_by_snd]
  | x :: xs => simp [min_by_snd]

theorem zip_self_map {α β : Type} (l : List α) (f : α → β) :
    l.zip (l.map f) = l.map (fun x => (x, f x)) := by
  induction l with
  | nil => rfl
  | cons a t ih => simp [ih]

/-- `Bot::get_expansion` (bot.rs): filter the static expansion list to
those whose every OWN townhall is further than 15 units, issue one batched
pathing query from the start location to each candidate (embedded as the
response function `pathing`, keyed by the queried goal position), keep the
candidates with a reported distance and return the one with the minimal
reported path distance. -/
def get_expansion (expansions : List Expansion) (my_townhalls : List Point2)
    (pathing : Point2 → Option ℚ) : Option Expansion :=
  let cands := expansions.filter
    (fun e => my_townhalls.all (fun t => is_further 15 t e.1))
  let paths := cands.map (fun e => pathing e.1)
  (min_by_snd ((cands.zip paths).filterMap
    (fun ep => ep.2.map (fun d => (ep.1, d))))).map Prod.fst

/-- C6 counterexample: `get_expansion` does NOT rank exactly the free
expansions: with no own townhall and an enemy townhall 3 units from the
only expansion, the free set is empty, yet `get_expansion` still returns
that (enemy-owned) expansion — the code never consults enemy townhalls. -/
theorem get_expansion_not_free_counterexample :
    get_expansion [(⟨0, 0⟩, ⟨1, 1⟩)] [] (fun _ => some 5) =
        some (⟨0, 0⟩, ⟨1, 1⟩) ∧
      free_expansions [(⟨0, 0⟩, ⟨1, 1⟩)] [] [⟨3, 0⟩] = [] := by
  constructor
  · rfl
  · norm_num [free_expansions, is_further, Point2.distance_squared,
      List.filter]

/-- C6 (amended): `get_expansion` ranks exactly the expansions with no own
townhall within the 15-unit radius (enemy townhalls are not consulted): it
discards candidates with no reported path distance and returns the first
candidate of minimal reported path distance, or `none` when no candidate is
reachable. -/
theorem get_expansion_spec (E : List Expansion) (myTH : List Point2)
    (pathing : Point2 → Option ℚ) :
    (get_expansion E myTH pathing = none ↔
      (E.filter (fun e => myTH.all (fun t => is_further 15 t e.1))).filterMap
        (fun e => (pathing e.1).map (fun d => (e, d))) = []) ∧
    ∀ e, get_expansion E myTH pathing = some e →
      e ∈ E ∧ (∀ t ∈ myTH, is_further 15 t e.1 = true) ∧
      ∃ d, pathing e.1 = some d ∧
        ∃ pre post,
          (E.filter (fun e => myTH.all (fun t => is_further 15 t e.1))).filterMap
              (fun e => (pathing e.1).map (fun d => (e, d))) =
            pre ++ (e, d) :: post ∧
          (∀ y ∈ pre, d < y.2) ∧ (∀ y ∈ post, d ≤ y.2) := by
  have hreach : ∀ (cands : List Expansion),
      (cands.zip (cands.map (fun e => pathing e.1))).filterMap
          (fun ep => ep.2.map (fun d => (ep.1, d))) =
        cands.filterMap (fun e => (pathing e.1).map (fun d => (e, d))) := by
    intro cands
    rw [zip_self_map, List.filterMap_map]
    rfl
  constructor
  · rw [get_expansion]
    rw [hreach, Option.map_eq_none']
    exact min_by_snd_none _
  · intro e he
    rw [get_expansion] at he
    rw [hreach] at he
    set reach := (E.filter (fun e => myTH.all (fun t => is_further 15 t e.1))).filterMap
      (fun e => (pathing e.1).map (fun d => (e, d))) with hreachdef
    rcases hmin : min_by_snd reach with _ | m
    · rw [hmin] at he
      cases he
    · rw [hmin] at he
      have hem : m.1 = e := Option.some.inj he
      obtain ⟨pre, post, hdec, hpre, hpost⟩ := min_by_snd_spec reach m hmin
      have hmem : m ∈ reach := by
        rw [hdec]
        exact List.mem_append_right _ (List.mem_cons_self _ _)
      have hm2 : ∃ c, c ∈ E.filter (fun e => myTH.all (fun t => is_further 15 t e.1)) ∧
          (pathing c.1).map (fun d => (c, d)) = some m := by
        rw [hreachdef] at hmem
        exact List.mem_filterMap.mp hmem
      obtain ⟨c, hcmem, hcval⟩ := hm2
      rcases hp : pathing c.1 with _ | d
      · rw [hp] at hcval
        cases hcval
      · rw [hp] at hcval
        have hcd : (c, d) = m := Option.some.inj hcval
        have hce : c = e := by rw [← hem, ← hcd]
        subst hce
        have hdm : m = (c, d) := hcd.symm
        obtain ⟨hcE, hcall⟩ := List.mem_filter.mp hcmem
        refine ⟨hcE, ?_, d, hp, pre, post, ?_, ?_, ?_⟩
        · intro t ht
          exact List.all_eq_true.mp hcall t ht
        · rw [← hdm]
          exact hdec
        · intro y hy
          have := hpre y hy
          rw [hdm] at this
          exact this
        · intro y hy
          have := hpost y hy
          rw [hdm] at this
          exact this

/-- Witness for the amended C6 at a concrete input: a single expansion, no
own townhalls, a reported path distance of 7. -/
theorem get_expansion_spec_witness :
    (⟨50, 0⟩, ⟨50, 0⟩) ∈ ([(⟨50, 0⟩, ⟨50, 0⟩)] : List Expansion) ∧
      ∃ d, (fun _ : Point2 => some (7 : ℚ)) (⟨50, 0⟩ : Point2) = some d := by
  have h := (get_expansion_spec [(⟨50, 0⟩, ⟨50, 0⟩)] []
    (fun _ => some 7)).2 (⟨50, 0⟩, ⟨50, 0⟩) rfl
  obtain ⟨d, hd, -⟩ := h.2.2
  exact ⟨h.1, d, hd⟩

/-- `Point2::floor`: floor both coordinates. -/
def Point2.floor (p : Point2) : Point2 :=
  ⟨(⌊p.x⌋ : ℤ), (⌊p.y⌋ : ℤ)⟩

/-- A group resource as seen by the expansion search: its position and
whether it is a geyser (`Unit::is_geyser`, a type test on the fixed geyser
type set). -/
structure Resource where
  position : Point2
  is_geyser : Bool
deriving DecidableEq, Repr

/-- Modelled from the spec: `Units::center` (units module, not in src) is
the arithmetic mean of the member positions — the spec's "centroid". -/
def resources_center (ps : List Point2) : Point2 :=
  ⟨(ps.map Point2.x).sum / ps.length, (ps.map Point2.y).sum / ps.length⟩

/-- The group centroid snapped to the tile center:
`resources.center().floor() + 0.5` in `Bot::prepare_start`. -/
def snapped_center (rs : List Resource) : Point2 :=
  ((resources_center (rs.map Resource.position)).floor).offset (1 / 2) (1 / 2)

/-- The fixed offset disk searched by `Bot::prepare_start`:
`iproduct!((-7..=7), (-7..=7))` filtered to `x*x + y*y <= 64`, in the
iteration order of the product (x outer ascending, y inner ascending). -/
def OFFSETS : List (Int × Int) :=
  ((List.range 15).flatMap
      (fun i => (List.range 15).map (fun j => ((i : Int) - 7, (j : Int) - 7)))).filter
    (fun p => decide (p.1 * p.1 + p.2 * p.2 ≤ 64))

/-- One candidate of the expansion placement search: the offset position if
the placement grid is empty there and every group resource is strictly
farther (squared) than the geyser threshold 49.0 resp. the mineral
threshold 36.0, paired with the total sum of squared distances to the
group's resources (the Rust closure accumulates the sum while testing and
returns it only when every resource passes, so it equals the full sum). -/
def expansion_candidate (placement_empty : Point2 → Bool) (center : Point2)
    (resources : List Resource) (off : Int × Int) : Option (Point2 × ℚ) :=
  let pos := center.offset (off.1 : ℚ) (off.2 : ℚ)
  if placement_empty pos then
    if resources.all (fun r =>
        decide ((if r.is_geyser then (49 : ℚ) else 36) < pos.distance_squared r.position)) then
      some (pos, (resources.map (fun r => pos.distance_squared r.position)).sum)
    else none
  else none

/-- The expansion placement search of `Bot::prepare_start`: the qualifying
disk offset minimizing the distance sum (`min_by` keeps the first minimum,
so ties break by offset-list order); `none` embeds the fatal
`.expect("Can't detect right position for expansion")` panic. -/
def expansion_search (placement_empty : Point2 → Bool) (center : Point2)
    (resources : List Resource) : Option Point2 :=
  (min_by_snd (OFFSETS.filterMap
    (expansion_candidate placement_empty center resources))).map Prod.fst

/-- The per-group branch of `Bot::prepare_start`: reuse the known start
pair when the snapped centroid is within squared distance 16 of either
start resource centroid, otherwise run the placement search and pair the
found location with the mean of the group positions and the location. -/
def process_group (placement_empty : Point2 → Bool)
    (start_location start_center enemy_start enemy_start_center : Point2)
    (resources : List Resource) : Option (Point2 × Point2) :=
  let center := snapped_center resources
  if center.distance_squared start_center < 16 then
    some (start_location, start_center)
  else if center.distance_squared enemy_start_center < 16 then
    some (enemy_start, enemy_start_center)
  else
    (expansion_search placement_empty center resources).map (fun loc =>
      (loc,
        ⟨((resources.map (fun r => r.position.x)).sum + loc.x) / (resources.length + 1),
          ((resources.map (fun r => r.position.y)).sum + loc.y) / (resources.length + 1)⟩))

/-- Unfolding one qualifying candidate of the search. -/
theorem expansion_candidate_some (pe : Point2 → Bool) (c : Point2)
    (rs : List Resource) (off : Int × Int) (loc : Point2) (s : ℚ)
    (h : expansion_candidate pe c rs off = some (loc, s)) :
    loc = c.offset (off.1 : ℚ) (off.2 : ℚ) ∧ pe loc = true ∧
      (∀ r ∈ rs,
        (if r.is_geyser then (49 : ℚ) else 36) < loc.distance_squared r.position) ∧
      s = (rs.map (fun r => loc.distance_squared r.position)).sum := by
  unfold expansion_candidate at h
  by_cases hpe : pe (c.offset (off.1 : ℚ) (off.2 : ℚ)) = true
  · rw [if_pos hpe] at h
    by_cases hall : rs.all (fun r =>
        decide ((if r.is_geyser then (49 : ℚ) else 36) <
          (c.offset (off.1 : ℚ) (off.2 : ℚ)).distance_squared r.position)) = true
    · rw [if_pos hall] at h
      obtain ⟨hl, hs⟩ := Prod.mk.injEq .. ▸ Option.some.inj h
      subst hl
      refine ⟨rfl, hpe, ?_, hs.symm⟩
      intro r hr
      have := List.all_eq_true.mp hall r hr
      exact of_decide_eq_true this
    · rw [if_neg hall] at h
      cases h
  · rw [if_neg hpe] at h
    cases h

/-- C1: for a resource group whose snapped centroid is within the start
tolerance of neither start resource centroid, the search of
`Bot::prepare_start` fails fatally exactly when no disk offset qualifies,
and otherwise returns a position of the offset disk around the centroid
where the placement grid is empty, every group resource is strictly beyond
its squared-distance threshold (49 for geysers, 36 for mineral fields),
and the total sum of squared distances to the group's resources is minimal
among all qualifying positions, ties broken by offset-list order (the
returned candidate strictly precedes any other candidate of equal sum). -/
theorem prepare_start_expansion_spec (pe : Point2 → Bool)
    (sl sc es ec : Point2) (rs : List Resource)
    (h1 : ¬ (snapped_center rs).distance_squared sc < 16)
    (h2 : ¬ (snapped_center rs).distance_squared ec < 16) :
    (process_group pe sl sc es ec rs = none ↔
      OFFSETS.filterMap (expansion_candidate pe (snapped_center rs) rs) = []) ∧
    ∀ loc centroid, process_group pe sl sc es ec rs = some (loc, centroid) →
      ∃ s pre post,
        OFFSETS.filterMap (expansion_candidate pe (snapped_center rs) rs) =
          pre ++ (loc, s) :: post ∧
        (∃ off ∈ OFFSETS, loc = (snapped_center rs).offset (off.1 : ℚ) (off.2 : ℚ)) ∧
        pe loc = true ∧
        (∀ r ∈ rs,
          (if r.is_geyser then (49 : ℚ) else 36) < loc.distance_squared r.position) ∧
        s = (rs.map (fun r => loc.distance_squared r.position)).sum ∧
        (∀ y ∈ pre, s < y.2) ∧ (∀ y ∈ post, s ≤ y.2) := by
  have hunfold : process_group pe sl sc es ec rs =
      (expansion_search pe (snapped_center rs) rs).map (fun loc =>
        (loc,
          ⟨((rs.map (fun r => r.position.x)).sum + loc.x) / (rs.length + 1),
            ((rs.map (fun r => r.position.y)).sum + loc.y) / (rs.length + 1)⟩)) := by
    unfold process_group
    rw [if_neg h1, if_neg h2]
  constructor
  · rw [hunfold, Option.map_eq_none']
    unfold expansion_search
    rw [Option.map_eq_none']
    exact min_by_snd_none _
  · intro loc centroid hsome
    rw [hunfold] at hsome
    rcases hsearch : expansion_search pe (snapped_center rs) rs with _ | loc'
    · rw [hsearch] at hsome
      cases hsome
    · rw [hsearch] at hsome
      have hloc : loc' = loc := congrArg Prod.fst (Option.some.inj hsome)
      subst hloc
      unfold expansion_search at hsearch
      rcases hmin : min_by_snd (OFFSETS.filterMap
          (expansion_candidate pe (snapped_center rs) rs)) with _ | m
      · rw [hmin] at hsearch
        cases hsearch
      · rw [hmin] at hsearch
        have hm1 : m.1 = loc' := Option.some.inj hsearch
        obtain ⟨pre, post, hdec, hpre, hpost⟩ := min_by_snd_spec _ m hmin
        have hmem : m ∈ OFFSETS.filterMap
            (expansion_candidate pe (snapped_center rs) rs) := by
          rw [hdec]
          exact List.mem_append_right _ (List.mem_cons_self _ _)
        obtain ⟨off, hoff, hcand⟩ := List.mem_filterMap.mp hmem
        have hms : m = (loc', m.2) := by
          rw [← hm1]
        rw [hms] at hcand
        obtain ⟨hoffeq, hpe, hthr, hsum⟩ :=
          expansion_candidate_some pe (snapped_center rs) rs off loc' m.2 hcand
        refine ⟨m.2, pre, post, ?_, ⟨off, hoff, hoffeq⟩, hpe, hthr, hsum, ?_, ?_⟩
        · rw [← hms]
          exact hdec
        · intro y hy
          exact hpre y hy
        · intro y hy
          exact hpost y hy

/-- Witness for C1 at a concrete input: a single mineral field at the
origin with everything placeable and start centroids far away. -/
theorem prepare_start_expansion_spec_witness :
    (¬ (snapped_center [⟨⟨0, 0⟩, false⟩]).distance_squared ⟨100, 100⟩ < 16) ∧
      ((process_group (fun _ => true) ⟨99, 99⟩ ⟨100, 100⟩ ⟨199, 199⟩ ⟨200, 200⟩
          [⟨⟨0, 0⟩, false⟩] = none ↔
        OFFSETS.filterMap (expansion_candidate (fun _ => true)
          (snapped_center [⟨⟨0, 0⟩, false⟩]) [⟨⟨0, 0⟩, false⟩]) = []) ∧
      ∀ loc centroid,
        process_group (fun _ => true) ⟨99, 99⟩ ⟨100, 100⟩ ⟨199, 199⟩ ⟨200, 200⟩
            [⟨⟨0, 0⟩, false⟩] = some (loc, centroid) →
        ∃ s pre post,
          OFFSETS.filterMap (expansion_candidate (fun _ => true)
              (snapped_center [⟨⟨0, 0⟩, false⟩]) [⟨⟨0, 0⟩, false⟩]) =
            pre ++ (loc, s) :: post ∧
          (∃ off ∈ OFFSETS,
            loc = (snapped_center [⟨⟨0, 0⟩, false⟩]).offset (off.1 : ℚ) (off.2 : ℚ)) ∧
          (fun _ => true) loc = true ∧
          (∀ r ∈ ([⟨⟨0, 0⟩, false⟩] : List Resource),
            (if r.is_geyser then (49 : ℚ) else 36) < loc.distance_squared r.position) ∧
          s = (([⟨⟨0, 0⟩, false⟩] : List Resource).map
            (fun r => loc.distance_squared r.position)).sum ∧
          (∀ y ∈ pre, s < y.2) ∧ (∀ y ∈ post, s ≤ y.2)) := by
  have hfar1 : ¬ (snapped_center [⟨⟨0, 0⟩, false⟩]).distance_squared
      (⟨100, 100⟩ : Point2) < 16 := by
    norm_num [snapped_center, resources_center, Point2.floor, Point2.offset,
      Point2.distance_squared]
  have hfar2 : ¬ (snapped_center [⟨⟨0, 0⟩, false⟩]).distance_squared
      (⟨200, 200⟩ : Point2) < 16 := by
    norm_num [snapped_center, resources_center, Point2.floor, Point2.offset,
      Point2.distance_squared]
  exact ⟨hfar1, prepare_start_expansion_spec (fun _ => true)
    ⟨99, 99⟩ ⟨100, 100⟩ ⟨199, 199⟩ ⟨200, 200⟩ [⟨⟨0, 0⟩, false⟩] hfar1 hfar2⟩

/-- A terrain tile position (`ramp.rs`: `type Pos = (usize, usize)`). -/
abbrev Pos := ℕ × ℕ

/-- `ramp::Ramp`: the tile set, the shared terrain height map (`ByteMap`
of `u8` values, embedded as `Fin 256`) and the start location. -/
structure Ramp where
  points : List Pos
  height : Pos → Fin 256
  start_location : Point2

/-- One step of the `Ramp::upper` fold: track the running maximum height
and the tiles attaining it (`h.cmp(&max)`: Greater restarts the list,
Equal pushes, Less skips). -/
def upper_step (r : Ramp) (acc : Fin 256 × List Pos) (p : Pos) :
    Fin 256 × List Pos :=
  let h := r.height p
  if acc.1 < h then (h, [p])
  else if h = acc.1 then (acc.1, acc.2 ++ [p])
  else acc

/-- `Ramp::upper` (ramp.rs): tiles at the maximum height present, starting
from `u8::MIN`. -/
def Ramp.upper (r : Ramp) : List Pos :=
  (r.points.foldl (upper_step r) (0, [])).2

/-- One step of the `Ramp::lower` fold: track the running minimum height
and the tiles attaining it. -/
def lower_step (r : Ramp) (acc : Fin 256 × List Pos) (p : Pos) :
    Fin 256 × List Pos :=
  let h := r.height p
  if h < acc.1 then (h, [p])
  else if h = acc.1 then (acc.1, acc.2 ++ [p])
  else acc

/-- `Ramp::lower` (ramp.rs): tiles at the minimum height present, starting
from `u8::MAX`. -/
def Ramp.lower (r : Ramp) : List Pos :=
  (r.points.foldl (lower_step r) (255, [])).2

/-- `Ramp::bottom_center` (ramp.rs): integer mean of the lower-tier tiles
(`usize` division), `none` when the lower tier is empty. -/
def Ramp.bottom_center (r : Ramp) : Option Pos :=
  let ps := r.lower
  if ps.isEmpty then none
  else
    let s := ps.foldl (fun (a : ℕ × ℕ) p => (a.1 + p.1, a.2 + p.2)) (0, 0)
    some (s.1 / ps.length, s.2 / ps.length)

/-- Insertion step of the descending sort by key used in
`upper2_for_ramp_wall` (`sort_unstable_by_key` with `Reverse(key)`; the
unstable sort's tie order is unspecified, and nothing here depends on it). -/
def insertByKeyDesc (key : Pos → ℕ) (x : Pos) : List Pos → List Pos
  | [] => [x]
  | y :: ys => if key y < key x then x :: y :: ys else y :: insertByKeyDesc key x ys

/-- Descending sort by key. -/
def sortByKeyDesc (key : Pos → ℕ) (l : List Pos) : List Pos :=
  l.foldr (insertByKeyDesc key) []

/-- `Ramp::upper2_for_ramp_wall` (ramp.rs): `none` above 5 upper tiles;
for 3–5 tiles sort them by descending `center_x * x + center_y * y`
(projection against the lower centroid) and keep the first two; exactly 2
tiles are taken directly; fewer yield `none`. -/
def Ramp.upper2_for_ramp_wall (r : Ramp) : Option (Pos × Pos) :=
  let upper := r.upper
  if upper.length > 5 then none
  else if upper.length > 2 then
    r.bottom_center.bind (fun c =>
      match sortByKeyDesc (fun p => c.1 * p.1 + c.2 * p.2) upper with
      | p1 :: p2 :: _ => some (p1, p2)
      | _ => none)
  else if upper.length = 2 then
    match upper with
    | [p1, p2] => some (p1, p2)
    | _ => none
  else none

/-- The external geometry primitive `Point2::circle_intersection`
(geometry module; the spec treats geometry primitives as external
collaborators): the two intersection points of the circles of the given
radius centered at the two given points.  The ramp operations are
parameterized over it. -/
abbrev CircleIntersection := Point2 → Point2 → ℚ → Point2 × Point2

/-- `Ramp::barracks_in_middle` (ramp.rs): `none` unless the upper tier has
exactly 2 or 5 tiles; otherwise intersect circles of radius √5 (the `f32`
constant `2.236_068`) at the wall-pair tile centers and keep the
intersection farther from the first lower tile (`max_by`; the inner
`none` branch embeds the `.unwrap()` panic on an empty lower tier,
unreachable when a wall pair exists). -/
def Ramp.barracks_in_middle (ci : CircleIntersection) (r : Ramp) :
    Option Point2 :=
  let upper_len := r.upper.length
  if upper_len ≠ 2 ∧ upper_len ≠ 5 then none
  else
    match r.upper2_for_ramp_wall with
    | some (a, b) =>
      let p1 : Point2 := ⟨(a.1 : ℚ) + 1 / 2, (a.2 : ℚ) + 1 / 2⟩
      let p2 : Point2 := ⟨(b.1 : ℚ) + 1 / 2, (b.2 : ℚ) + 1 / 2⟩
      let intersects := ci p1 p2 (2236068 / 1000000)
      match r.lower.head? with
      | some l0 =>
        let lower : Point2 := ⟨(l0.1 : ℚ), (l0.2 : ℚ)⟩
        some (if intersects.2.distance_squared lower <
            intersects.1.distance_squared lower
          then intersects.1 else intersects.2)
      | none => none
    | none => none

/-- `Ramp::depot_in_middle` (ramp.rs): as `barracks_in_middle` with the
smaller radius √2.5 (the `f32` constant `1.581_138_8`). -/
def Ramp.depot_in_middle (ci : CircleIntersection) (r : Ramp) :
    Option Point2 :=
  let upper_len := r.upper.length
  if upper_len ≠ 2 ∧ upper_len ≠ 5 then none
  else
    match r.upper2_for_ramp_wall with
    | some (a, b) =>
      let p1 : Point2 := ⟨(a.1 : ℚ) + 1 / 2, (a.2 : ℚ) + 1 / 2⟩
      let p2 : Point2 := ⟨(b.1 : ℚ) + 1 / 2, (b.2 : ℚ) + 1 / 2⟩
      let intersects := ci p1 p2 (15811388 / 10000000)
      match r.lower.head? with
      | some l0 =>
        let lower : Point2 := ⟨(l0.1 : ℚ), (l0.2 : ℚ)⟩
        some (if intersects.2.distance_squared lower <
            intersects.1.distance_squared lower
          then intersects.1 else intersects.2)
      | none => none
    | none => none

/-- `Ramp::corner_depots` (ramp.rs): from the wall pair, intersect the
circle of radius √5 centered at the wall-pair midpoint with the secondary
mid-wall position; the `?` on `depot_in_middle` makes this `none` whenever
that is `none`. -/
def Ramp.corner_depots (ci : CircleIntersection) (r : Ramp) :
    Option (Point2 × Point2) :=
  match r.upper2_for_ramp_wall with
  | some (a, b) =>
    let p1 : Point2 := ⟨(a.1 : ℚ) + 1 / 2, (a.2 : ℚ) + 1 / 2⟩
    let p2 : Point2 := ⟨(b.1 : ℚ) + 1 / 2, (b.2 : ℚ) + 1 / 2⟩
    let center : Point2 := ⟨(p1.x + p2.x) / 2, (p1.y + p2.y) / 2⟩
    (r.depot_in_middle ci).map (fun d => ci center d (2236068 / 1000000))
  | none => none

theorem upper_of_nil (r : Ramp) (h : r.points = []) : r.upper = [] := by
  rw [Ramp.upper, h]
  rfl

theorem lower_step_preserves_ne_nil (r : Ramp) (acc : Fin 256 × List Pos)
    (p : Pos) (h : acc.2 ≠ []) : (lower_step r acc p).2 ≠ [] := by
  unfold lower_step
  by_cases h1 : r.height p < acc.1
  · rw [if_pos h1]
    simp
  · rw [if_neg h1]
    by_cases h2 : r.height p = acc.1
    · rw [if_pos h2]
      simp
    · rw [if_neg h2]
      exact h

theorem lower_step_first_ne_nil (r : Ramp) (p : Pos) :
    (lower_step r ((255 : Fin 256), ([] : List Pos)) p).2 ≠ [] := by
  unfold lower_step
  by_cases h1 : r.height p < (255 : Fin 256)
  · rw [if_pos h1]
    simp
  · by_cases h2 : r.height p = (255 : Fin 256)
    · rw [if_neg h1, if_pos h2]
      simp
    · exfalso
      have hlt : (r.height p).val < 256 := (r.height p).isLt
      have hn1 : ¬((r.height p).val < 255) := by
        intro hc
        exact h1 (Fin.lt_def.mpr hc)
      have hn2 : (r.height p).val ≠ 255 := by
        intro hc
        exact h2 (Fin.ext hc)
      omega

theorem lower_foldl_preserves_ne_nil (r : Ramp) (l : List Pos) :
    ∀ acc : Fin 256 × List Pos, acc.2 ≠ [] →
      (l.foldl (lower_step r) acc).2 ≠ [] := by
  induction l with
  | nil => intro acc h; exact h
  | cons p t ih =>
    intro acc h
    rw [List.foldl_cons]
    exact ih _ (lower_step_preserves_ne_nil r acc p h)

theorem lower_ne_nil (r : Ramp) (h : r.points ≠ []) : r.lower ≠ [] := by
  rw [Ramp.lower]
  match hp : r.points with
  | [] => exact absurd hp h
  | p :: t =>
    rw [List.foldl_cons]
    exact lower_foldl_preserves_ne_nil r t _ (lower_step_first_ne_nil r p)

theorem insertByKeyDesc_length (key : Pos → ℕ) (x : Pos) (l : List Pos) :
    (insertByKeyDesc key x l).length = l.length + 1 := by
  induction l with
  | nil => rfl
  | cons y ys ih =>
    unfold insertByKeyDesc
    by_cases h : key y < key x
    · rw [if_pos h]
      simp
    · rw [if_neg h]
      simp [ih]

theorem sortByKeyDesc_length (key : Pos → ℕ) (l : List Pos) :
    (sortByKeyDesc key l).length = l.length := by
  induction l with
  | nil => rfl
  | cons y ys ih =>
    rw [sortByKeyDesc, List.foldr_cons]
    rw [insertByKeyDesc_length]
    rw [← sortByKeyDesc]
    rw [ih]
    rfl

/-- `upper2_for_ramp_wall` yields a pair exactly for upper-tier counts
between 2 and 5. -/
theorem upper2_isSome_iff (r : Ramp) :
    (r.upper2_for_ramp_wall).isSome = true ↔
      2 ≤ r.upper.length ∧ r.upper.length ≤ 5 := by
  rw [Ramp.upper2_for_ramp_wall]
  by_cases h5 : r.upper.length > 5
  · rw [if_pos h5]
    simp
    omega
  · rw [if_neg h5]
    by_cases h2 : r.upper.length > 2
    · rw [if_pos h2]
      have hnonnil : r.upper ≠ [] := by
        intro hc
        rw [hc] at h2
        simp at h2
      have hpoints : r.points ≠ [] := by
        intro hc
        exact hnonnil (upper_of_nil r hc)
      have hlower : r.lower ≠ [] := lower_ne_nil r hpoints
      have hbc : ∃ c, r.bottom_center = some c := by
        rw [Ramp.bottom_center]
        rw [if_neg (by simpa using hlower)]
        exact ⟨_, rfl⟩
      obtain ⟨c, hc⟩ := hbc
      rw [hc, Option.some_bind]
      have hsortlen : (sortByKeyDesc (fun p => c.1 * p.1 + c.2 * p.2) r.upper).length =
          r.upper.length := sortByKeyDesc_length _ _
      match hs : sortByKeyDesc (fun p => c.1 * p.1 + c.2 * p.2) r.upper with
      | [] =>
        rw [hs] at hsortlen
        simp at hsortlen
        omega
      | [p1] =>
        rw [hs] at hsortlen
        simp at hsortlen
        omega
      | p1 :: p2 :: rest =>
        simp
        omega
    · rw [if_neg h2]
      by_cases he : r.upper.length = 2
      · rw [if_pos he]
        match hu : r.upper with
        | [] => rw [hu] at he; cases he
        | [p] => rw [hu] at he; cases he
        | p1 :: p2 :: rest =>
          rw [hu] at he
          simp at he
          rw [he]
          simp
      · rw [if_neg he]
        simp
        omega

/-- C7 counterexample: the claim says a two-tile wall pair is produced only
for upper-tier counts 2 and 5, but a ramp with exactly 3 equal-height tiles
already gets a wall pair from `upper2_for_ramp_wall` (counts 3 and 4 pass
its `> 2` arm too). -/
theorem upper2_three_tiles_counterexample :
    (Ramp.upper (⟨[(0, 0), (1, 0), (2, 0)], fun _ => (10 : Fin 256),
        ⟨0, 0⟩⟩ : Ramp)).length = 3 ∧
      (Ramp.upper2_for_ramp_wall (⟨[(0, 0), (1, 0), (2, 0)],
        fun _ => (10 : Fin 256), ⟨0, 0⟩⟩ : Ramp)).isSome = true := by
  constructor
  · rfl
  · rfl

/-- C7 (amended): for every ramp whose upper-tier tile count is neither 2
nor 5, `barracks_in_middle`, `depot_in_middle` and `corner_depots` all
return no position (the first two by their explicit count check, the third
because its `depot_in_middle()?` propagates that check); the internal wall
pair itself is produced exactly for upper counts between 2 and 5 — 2 taken
directly, 3 to 5 reduced to 2 by the descending-projection sort. -/
theorem ramp_wall_geometry_spec (ci : CircleIntersection) (r : Ramp)
    (h2 : r.upper.length ≠ 2) (h5 : r.upper.length ≠ 5) :
    r.barracks_in_middle ci = none ∧ r.depot_in_middle ci = none ∧
      r.corner_depots ci = none ∧
      ((r.upper2_for_ramp_wall).isSome = true ↔
        2 ≤ r.upper.length ∧ r.upper.length ≤ 5) := by
  have hbar : r.barracks_in_middle ci = none := by
    rw [Ramp.barracks_in_middle]
    rw [if_pos ⟨h2, h5⟩]
  have hdep : r.depot_in_middle ci = none := by
    rw [Ramp.depot_in_middle]
    rw [if_pos ⟨h2, h5⟩]
  have hcor : r.corner_depots ci = none := by
    rw [Ramp.corner_depots]
    match hu : r.upper2_for_ramp_wall with
    | none => rfl
    | some (a, b) =>
      rw [hdep]
      rfl
  exact ⟨hbar, hdep, hcor, upper2_isSome_iff r⟩

/-- Witness for the amended C7 at a concrete input: the 3-tile ramp and
the trivial circle-intersection function. -/
theorem ramp_wall_geometry_spec_witness :
    Ramp.barracks_in_middle (fun a _ _ => (a, a))
        (⟨[(0, 0), (1, 0), (2, 0)], fun _ => (10 : Fin 256), ⟨0, 0⟩⟩ : Ramp) =
      none ∧
    Ramp.corner_depots (fun a _ _ => (a, a))
        (⟨[(0, 0), (1, 0), (2, 0)], fun _ => (10 : Fin 256), ⟨0, 0⟩⟩ : Ramp) =
      none := by
  have h := ramp_wall_geometry_spec (fun a _ _ => (a, a))
    (⟨[(0, 0), (1, 0), (2, 0)], fun _ => (10 : Fin 256), ⟨0, 0⟩⟩ : Ramp)
    (by decide) (by decide)
  exact ⟨h.1, h.2.2.1⟩

/-- An engine-reported protocol error: the Debug rendering of the error
code enum and the detail text, as read from the response's error fields. -/
structure ProtoErrorInfo where
  code : String
  details : String
deriving DecidableEq, Repr

/-- `res.get_create_game()`: carries an optional explicit error. -/
structure ResponseCreateGame where
  error : Option ProtoErrorInfo
deriving DecidableEq, Repr

/-- `res.get_join_game()`: optional explicit error plus the assigned
player id. -/
structure ResponseJoinGame where
  error : Option ProtoErrorInfo
  player_id : ℕ
deriving DecidableEq, Repr

/-- One observation response of the step loop: either the game has ended
with a decoded result, or it is still running. -/
inductive StepObservation where
  | ended (result : ℕ)
  | inGame
deriving DecidableEq, Repr

/-- The engine side of one `run_vs_computer` session: the create-game and
join-game responses and the successive step-loop observation responses. -/
structure Engine where
  create_game : ResponseCreateGame
  join_game : ResponseJoinGame
  observations : List StepObservation
deriving DecidableEq, Repr

/-- `format!("{:?}: {}", error, error_details)` — the message of the
`panic!` in `run_vs_computer` and of `ProtoError::new` in `wait_join`. -/
def formatProtoError (e : ProtoErrorInfo) : String :=
  e.code ++ ": " ++ e.details

/-- How a session run terminates. -/
inductive SessionOutcome where
  | panicked (message : String)
  | errored (message : String)
  | finished
deriving DecidableEq, Repr

/-- The observable summary of one `run_vs_computer` session: whether the
consumer's `on_start` callback was ever invoked, how many step-loop
iterations ran, and how the session ended. -/
structure SessionTrace where
  on_start_invoked : Bool
  step_iterations : ℕ
  outcome : SessionOutcome
deriving DecidableEq, Repr

/-- The number of step-loop iterations until the engine reports the game
ended (`while play_step(..)? { iteration += 1 }`). -/
def countSteps : List StepObservation → ℕ
  | [] => 0
  | .ended _ :: _ => 0
  | .inGame :: rest => countSteps rest + 1

/-- `run_vs_computer` (client.rs), embedded as a trace summary over the
engine's responses: after launch/connect, the create-game response is
checked first — an explicit error there panics with the formatted code and
details before `join_game`, before `play_first_step` (which is what invokes
`on_start`) and before any step-loop iteration.  A join error propagates as
an `Err` likewise before `on_start`.  Otherwise `play_first_step` runs
(invoking `on_start`) and the loop steps until the engine reports the game
ended. -/
def run_vs_computer (eng : Engine) : SessionTrace :=
  match eng.create_game.error with
  | some e => ⟨false, 0, .panicked (formatProtoError e)⟩
  | none =>
    match eng.join_game.error with
    | some e => ⟨false, 0, .errored (formatProtoError e)⟩
    | none => ⟨true, countSteps eng.observations, .finished⟩

/-- C8: when the create-game response carries an explicit error, the
session aborts before `on_start` is ever invoked and before any step-loop
iteration, surfacing the decoded error code and detail text. -/
theorem create_game_error_aborts (eng : Engine) (e : ProtoErrorInfo)
    (h : eng.create_game.error = some e) :
    run_vs_computer eng =
      ⟨false, 0, .panicked (e.code ++ ": " ++ e.details)⟩ := by
  rw [run_vs_computer, h]
  rfl

/-- Witness for C8 at a concrete input: a create-game response rejected
with code `MissingMap`. -/
theorem create_game_error_aborts_witness :
    run_vs_computer
        ⟨⟨some ⟨"MissingMap", "map not found"⟩⟩, ⟨none, 1⟩,
          [.inGame, .ended 0]⟩ =
      ⟨false, 0, .panicked ("MissingMap" ++ ": " ++ "map not found")⟩ :=
  create_game_error_aborts
    ⟨⟨some ⟨"MissingMap", "map not found"⟩⟩, ⟨none, 1⟩, [.inGame, .ended 0]⟩
    ⟨"MissingMap", "map not found"⟩ rfl

/-- C10: any expansion returned by `free_expansions` is returned by neither
`owned_expansions` nor `enemy_expansions`: a location whose every own and
enemy townhall is strictly farther than 15 units cannot have a townhall of
either side strictly closer than 15, so the free set is disjoint from both
owned sets. -/
theorem free_expansions_disjoint (E : List Expansion)
    (myTH eTH : List Point2) (e : Expansion)
    (h : e ∈ free_expansions E myTH eTH) :
    e ∉ owned_expansions E myTH ∧ e ∉ enemy_expansions E eTH := by
  rw [free_expansions, List.mem_filter] at h
  obtain ⟨-, hprop⟩ := h
  rw [Bool.and_eq_true, List.all_eq_true, List.all_eq_true] at hprop
  obtain ⟨hmy, hen⟩ := hprop
  constructor
  · intro hmem
    rw [owned_expansions, List.mem_filter, List.any_eq_true] at hmem
    obtain ⟨-, t, ht, hclose⟩ := hmem
    have hfar := hmy t ht
    rw [is_further, decide_eq_true_eq] at hfar
    rw [is_closer, decide_eq_true_eq] at hclose
    exact absurd hclose (not_lt.mpr (le_of_lt hfar))
  · intro hmem
    rw [enemy_expansions, List.mem_filter, List.any_eq_true] at hmem
    obtain ⟨-, t, ht, hclose⟩ := hmem
    have hfar := hen t ht
    rw [is_further, decide_eq_true_eq] at hfar
    rw [is_closer, decide_eq_true_eq] at hclose
    exact absurd hclose (not_lt.mpr (le_of_lt hfar))

/-- Witness for C10 at a concrete input: one expansion at the origin, one
own townhall and one enemy townhall both 100 units away. -/
theorem free_expansions_disjoint_witness :
    (⟨⟨0, 0⟩, ⟨1, 1⟩⟩ : Expansion) ∈
        free_expansions [⟨⟨0, 0⟩, ⟨1, 1⟩⟩] [⟨100, 0⟩] [⟨0, 100⟩] ∧
      (⟨⟨0, 0⟩, ⟨1, 1⟩⟩ : Expansion) ∉ owned_expansions [⟨⟨0, 0⟩, ⟨1, 1⟩⟩] [⟨100, 0⟩] ∧
      (⟨⟨0, 0⟩, ⟨1, 1⟩⟩ : Expansion) ∉ enemy_expansions [⟨⟨0, 0⟩, ⟨1, 1⟩⟩] [⟨0, 100⟩] :=
  have hmem : (⟨⟨0, 0⟩, ⟨1, 1⟩⟩ : Expansion) ∈
      free_expansions [⟨⟨0, 0⟩, ⟨1, 1⟩⟩] [⟨100, 0⟩] [⟨0, 100⟩] :=
    List.mem_filter.mpr ⟨List.mem_singleton.mpr rfl,
      by norm_num [is_further, Point2.distance_squared]⟩
  ⟨hmem, free_expansions_disjoint _ _ _ _ hmem⟩

end Sc2
